import Mathlib

/-!
Shallow embedding of the CLI shell `azubi-timesheet.py` of the
azubi-timesheet repository: subcommand dispatch (`execute`), the date and
time-interval validation loops (`check_date`, `check_time_interval`), the
argument-checking pass (`check_args`) and the argument parser (`parse_cli`).

Modelling conventions:
* Python strings are lists of characters (`PyStr`).
* The interactive input stream (`input()`) is a function from the prompt
  index to the line read; each function threads the index of the next
  unread line and reports it in its outcome, so theorems can speak about
  how many prompts were issued.
* `sys.exit(1)` is an explicit outcome constructor, as is an uncaught
  Python exception.
* `datetime.datetime.strptime` is modelled after CPython's `_strptime`
  implementation: each format directive compiles to a regular expression
  (`%d` is `3[0-1]|[1-2]\d|0[1-9]|[1-9]| [1-9]`, `%m` is `1[0-2]|0[1-9]|[1-9]`,
  `%Y` is `\d\d\d\d`, `%H` is `2[0-3]|[0-1]\d|\d`, `%M` is `[0-5]\d|\d`),
  the whole string must be consumed, and the parsed numbers are then fed
  to the `datetime` constructor, which validates the calendar date
  (year at least 1, day at most the length of the month).
-/

/-- Python strings, modelled as lists of characters. -/
abbrev PyStr := List Char

/-- Python's `s.split(sep)` for a one-character separator: split at every
occurrence of the separator, keeping empty parts; the result is never
empty (splitting the empty string yields one empty part). -/
def pySplit (sep : Char) : PyStr → List PyStr
  | [] => [[]]
  | c :: rest =>
    if c = sep then
      [] :: pySplit sep rest
    else
      match pySplit sep rest with
      | [] => [[c]]
      | p :: ps => (c :: p) :: ps

/-- Numeric value of a digit string (Python's `int`), most significant
digit first. -/
def tokVal (s : PyStr) : Nat :=
  s.foldl (fun n c => n * 10 + (c.toNat - 48)) 0

/-- A non-empty string of ASCII digits. -/
def isDigits (s : PyStr) : Bool :=
  !s.isEmpty && s.all Char.isDigit

/-- The alternative ` [1-9]` of CPython's `%d` regex: a space followed by
a non-zero digit. -/
def spacedDigit (s : PyStr) : Bool :=
  match s with
  | [c1, c2] => c1 == ' ' && decide ('1' ≤ c2) && decide (c2 ≤ '9')
  | _ => false

/-- Language of CPython's `%d` directive: one or two digits with value
in 1..31, or a space followed by a non-zero digit
(regex `3[0-1]|[1-2]\d|0[1-9]|[1-9]| [1-9]`). -/
def dayTok (s : PyStr) : Bool :=
  (isDigits s && decide (s.length ≤ 2) && decide (1 ≤ tokVal s) && decide (tokVal s ≤ 31))
  || spacedDigit s

/-- Language of CPython's `%m` directive: one or two digits with value
in 1..12 (regex `1[0-2]|0[1-9]|[1-9]`). -/
def monTok (s : PyStr) : Bool :=
  isDigits s && decide (s.length ≤ 2) && decide (1 ≤ tokVal s) && decide (tokVal s ≤ 12)

/-- Language of CPython's `%Y` directive: exactly four digits
(regex `\d\d\d\d`). -/
def yearTok (s : PyStr) : Bool :=
  isDigits s && decide (s.length = 4)

/-- Language of CPython's `%H` directive: one or two digits with value
at most 23 (regex `2[0-3]|[0-1]\d|\d`). -/
def hourTok (s : PyStr) : Bool :=
  isDigits s && decide (s.length ≤ 2) && decide (tokVal s ≤ 23)

/-- Language of CPython's `%M` directive: one or two digits with value
at most 59 (regex `[0-5]\d|\d`). -/
def minuteTok (s : PyStr) : Bool :=
  isDigits s && decide (s.length ≤ 2) && decide (tokVal s ≤ 59)

/-- Gregorian leap-year rule used by `datetime`. -/
def isLeap (y : Nat) : Bool :=
  y % 4 == 0 && (y % 100 != 0 || y % 400 == 0)

/-- Number of days of month `m` in year `y`, as validated by the
`datetime` constructor. -/
def daysInMonth (y m : Nat) : Nat :=
  if m = 2 then (if isLeap y then 29 else 28)
  else if m = 4 ∨ m = 6 ∨ m = 9 ∨ m = 11 then 30
  else 31

/-- A parsed `datetime.datetime` as returned by `check_date` (only the
date components matter to this program). -/
structure PyDate where
  year : Nat
  month : Nat
  day : Nat
deriving DecidableEq

/-- A `datetime.time` value, as returned by `check_time_interval`. -/
structure PyTime where
  hour : Nat
  minute : Nat
deriving DecidableEq

/-- `datetime.datetime.strptime(s, "%d.%m.%Y")`: the pattern
`(%d)\.(%m)\.(%Y)` must consume the whole string — equivalently the
string splits at the literal dots into exactly three tokens of the
respective directive languages — and the `datetime` constructor then
requires the year to be at least 1 and the day to exist in that month.
Returns `none` where Python raises `ValueError`. -/
def strptimeDMY (s : PyStr) : Option PyDate :=
  match pySplit '.' s with
  | [ds, ms, ys] =>
    if dayTok ds && monTok ms && yearTok ys
        && decide (1 ≤ tokVal ys)
        && decide (tokVal ds ≤ daysInMonth (tokVal ys) (tokVal ms)) then
      some ⟨tokVal ys, tokVal ms, tokVal ds⟩
    else none
  | _ => none

/-- `datetime.datetime.strptime(s, "%H:%M").time()`: the pattern
`(%H):(%M)` must consume the whole string. Returns `none` where Python
raises `ValueError`. -/
def strptimeHM (s : PyStr) : Option PyTime :=
  match pySplit ':' s with
  | [hs, ms] =>
    if hourTok hs && minuteTok ms then some ⟨tokVal hs, tokVal ms⟩ else none
  | _ => none

/-- Kinds of Python exceptions relevant to this program: the `except
ValueError` clauses catch exactly the first kind. -/
inductive PyError where
  | valueError
  | otherError
deriving DecidableEq

/-- The tuple unpacking `start, end = time_interval.split("-")`: raises
`ValueError` unless the split yields exactly two parts. -/
def splitUnpack2 (s : PyStr) : Except PyError (PyStr × PyStr) :=
  match pySplit '-' s with
  | [a, b] => .ok (a, b)
  | _ => .error .valueError

/-- Body of the `try` block of `check_time_interval`: unpack the split
into `start` and `end` and parse both with `strptime(_, "%H:%M")`; every
failure in it is a `ValueError`. -/
def tryParseInterval (s : PyStr) : Except PyError (PyTime × PyTime) :=
  match splitUnpack2 s with
  | .error e => .error e
  | .ok (a, b) =>
    match strptimeHM a, strptimeHM b with
    | some t1, some t2 => .ok (t1, t2)
    | _, _ => .error .valueError

/-- Decidable equality of parse-attempt results, so that concrete runs
can be checked by evaluation. -/
instance (ε α : Type) [DecidableEq ε] [DecidableEq α] :
    DecidableEq (Except ε α) := fun x y =>
  match x, y with
  | .ok a, .ok b =>
    if h : a = b then isTrue (by rw [h])
    else isFalse (fun he => h (Except.ok.inj he))
  | .error a, .error b =>
    if h : a = b then isTrue (by rw [h])
    else isFalse (fun he => h (Except.error.inj he))
  | .ok _, .error _ => isFalse (fun he => Except.noConfusion he)
  | .error _, .ok _ => isFalse (fun he => Except.noConfusion he)

/-- Result of one of the validation functions, carrying the index of the
next unread interactive input: normal return, `sys.exit(1)`, or an
exception propagating out of the function. -/
inductive Outcome (α : Type) where
  | ok (val : α) (idx : Nat)
  | exit1 (idx : Nat)
  | raised (e : PyError) (idx : Nat)
deriving DecidableEq

/-- The `while attempts:` loop of `check_date`, with the remaining
attempt count as fuel: read interactive input when the candidate is empty
and interaction is allowed, try to parse, and on failure clear the
candidate and retry. -/
def checkDateGo (date : PyStr) (nonInteractive : Bool) (inputs : Nat → PyStr)
    (idx : Nat) : Nat → Outcome PyDate
  | 0 => .exit1 idx
  | attempts + 1 =>
    let read := date.isEmpty && !nonInteractive
    let date2 := if read then inputs idx else date
    let idx2 := if read then idx + 1 else idx
    match strptimeDMY date2 with
    | some d => .ok d idx2
    | none => checkDateGo [] nonInteractive inputs idx2 attempts

/-- `check_date(date, non_interactive)`: the attempt budget defaults to 3
and is cut to 1 in non-interactive mode; when the budget runs out the
function prints a message and exits with code 1. -/
def check_date (date : PyStr) (nonInteractive : Bool) (inputs : Nat → PyStr)
    (idx : Nat) : Outcome PyDate :=
  checkDateGo date nonInteractive inputs idx (if nonInteractive then 1 else 3)

/-- The `while attempts:` loop of `check_time_interval`: like the date
loop, except that the parse attempt distinguishes exception kinds — the
`except ValueError` clause catches only `ValueError`, any other exception
would propagate out. -/
def checkTimeGo (ti : PyStr) (nonInteractive : Bool) (inputs : Nat → PyStr)
    (idx : Nat) : Nat → Outcome (PyTime × PyTime)
  | 0 => .exit1 idx
  | attempts + 1 =>
    let read := ti.isEmpty && !nonInteractive
    let ti2 := if read then inputs idx else ti
    let idx2 := if read then idx + 1 else idx
    match tryParseInterval ti2 with
    | .ok p => .ok p idx2
    | .error .valueError => checkTimeGo [] nonInteractive inputs idx2 attempts
    | .error e => .raised e idx2

/-- `check_time_interval(time_interval, non_interactive)`: attempt budget
3, cut to 1 in non-interactive mode; exits with code 1 when the budget
runs out. -/
def check_time_interval (ti : PyStr) (nonInteractive : Bool)
    (inputs : Nat → PyStr) (idx : Nat) : Outcome (PyTime × PyTime) :=
  checkTimeGo ti nonInteractive inputs idx (if nonInteractive then 1 else 3)

/-- The four subcommands accepted by the positional argument. -/
inductive Subcommand where
  | add
  | update
  | delete
  | exportCmd
deriving DecidableEq

/-- The `argparse.Namespace` as produced by `parse_cli`: the subcommand
is optional, the two flags default to false and the string-valued options
default to the empty string. -/
structure CliNamespace where
  subcommand : Option Subcommand
  non_interactive : Bool
  special : Bool
  date : PyStr
  work_hours : PyStr
  break_time : PyStr
  comment : PyStr
deriving DecidableEq

/-- A namespace field that `check_args` may overwrite with a parsed time
pair, or leave as the raw command-line string. -/
inductive IntervalField where
  | raw (s : PyStr)
  | pair (startT endT : PyTime)
deriving DecidableEq

/-- The namespace after `check_args` ran: the date is always parsed, the
interval fields are parsed, zeroed, or left raw depending on the
subcommand and the special flag. -/
structure CheckedArgs where
  subcommand : Option Subcommand
  non_interactive : Bool
  special : Bool
  date : PyDate
  work_hours : IntervalField
  break_time : IntervalField
  comment : PyStr
deriving DecidableEq

/-- The sentinel `datetime.time(0, 0)`. -/
def zeroTime : PyTime := ⟨0, 0⟩

/-- `check_args(args)`: validate the date; then, unless the subcommand is
`delete` or `export`, prompt for a missing comment and either validate
both time intervals or — for special records — set both to the zero
sentinel. -/
def check_args (args : CliNamespace) (inputs : Nat → PyStr) (idx : Nat) :
    Outcome CheckedArgs :=
  match check_date args.date args.non_interactive inputs idx with
  | .exit1 i => .exit1 i
  | .raised e i => .raised e i
  | .ok d i1 =>
    if args.subcommand ≠ some .delete ∧ args.subcommand ≠ some .exportCmd then
      let readC := args.comment.isEmpty && !args.non_interactive
      let comment := if readC then inputs i1 else args.comment
      let i2 := if readC then i1 + 1 else i1
      if !args.special then
        match check_time_interval args.work_hours args.non_interactive inputs i2 with
        | .exit1 i => .exit1 i
        | .raised e i => .raised e i
        | .ok wp i3 =>
          match check_time_interval args.break_time args.non_interactive inputs i3 with
          | .exit1 i => .exit1 i
          | .raised e i => .raised e i
          | .ok bp i4 =>
            .ok ⟨args.subcommand, args.non_interactive, args.special, d,
                 .pair wp.1 wp.2, .pair bp.1 bp.2, comment⟩ i4
      else
        .ok ⟨args.subcommand, args.non_interactive, args.special, d,
             .pair zeroTime zeroTime, .pair zeroTime zeroTime, comment⟩ i2
    else
      .ok ⟨args.subcommand, args.non_interactive, args.special, d,
           .raw args.work_hours, .raw args.break_time, args.comment⟩ i1

/-- Return values of the four `Timesheet` store operations for the
current invocation (the store itself lives in the separate `timesheet`
module; `execute` only consumes these booleans). -/
structure StoreBehavior where
  add_record : Bool
  update_record : Bool
  delete_record : Bool
  export_record : Bool
deriving DecidableEq

/-- Observable outcome of `execute`: fall through normally (after which
`main` returns 0), call `sys.exit` with a code after printing a message,
or let an exception propagate. -/
inductive ExecOutcome where
  | completed
  | exited (code : Nat) (msg : String)
  | raised (e : PyError)
deriving DecidableEq

/-- `execute(args)`: dispatch on the subcommand and turn a false store
result into a printed message plus `sys.exit(1)`. -/
def execute (subcommand : Option Subcommand) (store : StoreBehavior) :
    ExecOutcome :=
  match subcommand with
  | some .add =>
    if !store.add_record then
      .exited 1 "Exiting. Record already exists."
    else .completed
  | some .update =>
    if !store.update_record then
      .exited 1 "Exiting. Record with given date not found."
    else .completed
  | some .delete =>
    if !store.delete_record then
      .exited 1 "Exiting. Record with given date not found."
    else .completed
  | some .exportCmd =>
    if !store.export_record then
      .exited 1 "Exiting. No idea why yet."
    else .completed
  | none => .completed

/-- Exit code of the whole process given the outcome of `execute`:
`main` returns 0 on fall-through and the script exits with that value;
an uncaught exception has no exit code here. -/
def processExitCode (o : ExecOutcome) : Option Nat :=
  match o with
  | .completed => some 0
  | .exited c _ => some c
  | .raised _ => none

/-- Outcome of `parse_cli`: a parsed namespace, or one of the immediate
exits (help and version print and exit 0, an argparse usage error exits
with code 2). -/
inductive ParseOutcome where
  | ok (ns : CliNamespace)
  | helpExit0
  | versionExit0
  | errorExit2
deriving DecidableEq

/-- The namespace defaults declared by the `add_argument` calls. -/
def defaultNamespace : CliNamespace :=
  ⟨none, false, false, [], [], [], []⟩

/-- The `choices` list of the positional argument. -/
def subcommandOf (t : String) : Option Subcommand :=
  if t = "add" then some .add
  else if t = "update" then some .update
  else if t = "delete" then some .delete
  else if t = "export" then some .exportCmd
  else none

/-- Token-by-token model of the argparse parser declared in `parse_cli`:
`-h`/`-v` print and exit 0 immediately, `-n`/`-s` store true, the four
value options consume the following token, one optional positional must
be one of the four subcommand names, and anything else is a usage error
(argparse exits with code 2). -/
def parseLoop : List String → CliNamespace → ParseOutcome
  | [], ns => .ok ns
  | t :: rest, ns =>
    if t = "-h" ∨ t = "--help" then .helpExit0
    else if t = "-v" ∨ t = "--version" then .versionExit0
    else if t = "-n" ∨ t = "--non-interactive" then
      parseLoop rest { ns with non_interactive := true }
    else if t = "-s" ∨ t = "--special-record" then
      parseLoop rest { ns with special := true }
    else if t = "-d" ∨ t = "--date" then
      match rest with
      | v :: r => parseLoop r { ns with date := v.toList }
      | [] => .errorExit2
    else if t = "-w" ∨ t = "--work-hours" then
      match rest with
      | v :: r => parseLoop r { ns with work_hours := v.toList }
      | [] => .errorExit2
    else if t = "-b" ∨ t = "--break-time" then
      match rest with
      | v :: r => parseLoop r { ns with break_time := v.toList }
      | [] => .errorExit2
    else if t = "-c" ∨ t = "--comment" then
      match rest with
      | v :: r => parseLoop r { ns with comment := v.toList }
      | [] => .errorExit2
    else
      match subcommandOf t, ns.subcommand with
      | some c, none => parseLoop rest { ns with subcommand := some c }
      | _, _ => .errorExit2

/-- `parse_cli`: run the argparse parser over the command line; after a
successful parse, the source tests `if not sys.argv[1:]` — emptiness of
the whole raw argument list, not absence of the subcommand — and prints
the help text and exits 0 when no arguments at all were given. In `main`
the parsed list and `sys.argv[1:]` are the same list. -/
def parse_cli (argv : List String) : ParseOutcome :=
  match parseLoop argv defaultNamespace with
  | .ok ns => if argv.isEmpty then .helpExit0 else .ok ns
  | e => e

/-- Joining a list of parts with a separator (the inverse of `pySplit`). -/
def joinSep (sep : Char) : List PyStr → PyStr
  | [] => []
  | [p] => p
  | p :: ps => p ++ sep :: joinSep sep ps

/-- Transcription of the spec sentence for the date wire format read
strictly: the string splits at the dots into exactly a two-digit day, a
two-digit month and a four-digit year. -/
def specExactDate (s : PyStr) : Bool :=
  match pySplit '.' s with
  | [ds, ms, ys] =>
    isDigits ds && (ds.length == 2) && isDigits ms && (ms.length == 2)
      && isDigits ys && (ys.length == 4)
  | _ => false

/-- Transcription of the spec's `HH:MM` token read strictly: two digits,
a colon, two digits. -/
def specExactHM (t : PyStr) : Bool :=
  match t with
  | [h1, h2, c, m1, m2] =>
    h1.isDigit && h2.isDigit && (c == ':') && m1.isDigit && m2.isDigit
  | _ => false

/-- Transcription of the spec sentence for the time-interval wire format
read strictly: exactly two `HH:MM` tokens joined by a single dash. -/
def specExactInterval (s : PyStr) : Bool :=
  match pySplit '-' s with
  | [a, b] => specExactHM a && specExactHM b
  | _ => false

/-- The grammar the source actually accepts for one `%H:%M` token: an
hour token, a colon, a minute token. -/
def looseHM (t : PyStr) : Prop :=
  ∃ hs ms, t = hs ++ ':' :: ms ∧ hourTok hs = true ∧ minuteTok ms = true

/-- The grammar the source actually accepts for a date string: a `%d`
token, a dot, a `%m` token, a dot, a `%Y` token, subject to the calendar
checks of the `datetime` constructor. -/
def looseDate (s : PyStr) : Prop :=
  ∃ ds ms ys, s = ds ++ '.' :: (ms ++ '.' :: ys)
    ∧ dayTok ds = true ∧ monTok ms = true ∧ yearTok ys = true
    ∧ 1 ≤ tokVal ys ∧ tokVal ds ≤ daysInMonth (tokVal ys) (tokVal ms)

/-- The grammar the source actually accepts for a time interval: two
`%H:%M` tokens joined by a single dash. -/
def looseInterval (s : PyStr) : Prop :=
  ∃ a b, s = a ++ '-' :: b ∧ looseHM a ∧ looseHM b

lemma pySplit_ne_nil (sep : Char) (s : PyStr) : pySplit sep s ≠ [] := by
  cases s with
  | nil => simp [pySplit]
  | cons c rest =>
    by_cases hc : c = sep
    · simp [pySplit, hc]
    · simp only [pySplit, if_neg hc]
      cases h : pySplit sep rest with
      | nil => simp
      | cons p ps => simp

lemma joinSep_pySplit (sep : Char) (s : PyStr) :
    joinSep sep (pySplit sep s) = s := by
  induction s with
  | nil => rfl
  | cons c rest ih =>
    by_cases hc : c = sep
    · subst hc
      simp only [pySplit, if_pos rfl]
      cases h : pySplit c rest with
      | nil => exact absurd h (pySplit_ne_nil c rest)
      | cons p ps =>
        rw [h] at ih
        simp only [joinSep, List.nil_append]
        rw [ih]
    · simp only [pySplit, if_neg hc]
      cases h : pySplit sep rest with
      | nil => exact absurd h (pySplit_ne_nil sep rest)
      | cons p ps =>
        rw [h] at ih
        cases ps with
        | nil =>
          simp only [joinSep] at ih ⊢
          rw [ih]
        | cons q qs =>
          simp only [joinSep, List.cons_append] at ih ⊢
          rw [ih]

lemma sep_not_mem_of_mem_pySplit (sep : Char) (s : PyStr) :
    ∀ p ∈ pySplit sep s, sep ∉ p := by
  induction s with
  | nil =>
    intro p hp
    simp only [pySplit, List.mem_singleton] at hp
    subst hp
    simp
  | cons c rest ih =>
    intro p hp
    by_cases hc : c = sep
    · subst hc
      simp only [pySplit, if_pos rfl] at hp
      rcases List.mem_cons.mp hp with h | h
      · subst h; simp
      · exact ih p h
    · simp only [pySplit, if_neg hc] at hp
      cases h : pySplit sep rest with
      | nil => exact absurd h (pySplit_ne_nil sep rest)
      | cons q qs =>
        rw [h] at hp
        rcases List.mem_cons.mp hp with h1 | h1
        · subst h1
          intro hmem
          rcases List.mem_cons.mp hmem with h2 | h2
          · exact hc h2.symm
          · have hq : q ∈ pySplit sep rest := by
              rw [h]; exact List.mem_cons_self q qs
            exact ih q hq h2
        · have hp2 : p ∈ pySplit sep rest := by
            rw [h]; exact List.mem_cons_of_mem q h1
          exact ih p hp2

lemma pySplit_eq_single (sep : Char) (s : PyStr) (h : sep ∉ s) :
    pySplit sep s = [s] := by
  induction s with
  | nil => rfl
  | cons c rest ih =>
    have hc : c ≠ sep := fun e => h (List.mem_cons.mpr (Or.inl e.symm))
    have h0 : sep ∉ rest := fun hm => h (List.mem_cons_of_mem c hm)
    simp only [pySplit, if_neg hc]
    rw [ih h0]

lemma pySplit_append_sep (sep : Char) (a t : PyStr) (h : sep ∉ a) :
    pySplit sep (a ++ sep :: t) = a :: pySplit sep t := by
  induction a with
  | nil => simp [pySplit]
  | cons c a0 ih =>
    have hc : c ≠ sep := fun e => h (List.mem_cons.mpr (Or.inl e.symm))
    have h0 : sep ∉ a0 := fun hm => h (List.mem_cons_of_mem c hm)
    simp only [List.cons_append, pySplit, if_neg hc, List.append_eq]
    rw [ih h0]

lemma not_mem_of_isDigits (l : PyStr) (c : Char) (h : isDigits l = true)
    (hc : c.isDigit = false) : c ∉ l := by
  intro hm
  simp only [isDigits, Bool.and_eq_true, List.all_eq_true] at h
  have hd := h.2 c hm
  rw [hc] at hd
  exact Bool.false_ne_true hd

lemma isDigits_of_monTok (s : PyStr) (h : monTok s = true) :
    isDigits s = true := by
  simp only [monTok, Bool.and_eq_true] at h
  exact h.1.1.1

lemma isDigits_of_yearTok (s : PyStr) (h : yearTok s = true) :
    isDigits s = true := by
  simp only [yearTok, Bool.and_eq_true] at h
  exact h.1

lemma isDigits_of_hourTok (s : PyStr) (h : hourTok s = true) :
    isDigits s = true := by
  simp only [hourTok, Bool.and_eq_true] at h
  exact h.1.1

lemma isDigits_of_minuteTok (s : PyStr) (h : minuteTok s = true) :
    isDigits s = true := by
  simp only [minuteTok, Bool.and_eq_true] at h
  exact h.1.1

lemma dot_not_mem_of_dayTok (s : PyStr) (h : dayTok s = true) : ('.' : Char) ∉ s := by
  simp only [dayTok, Bool.or_eq_true, Bool.and_eq_true] at h
  rcases h with ⟨⟨⟨hd, _⟩, _⟩, _⟩ | h
  · exact not_mem_of_isDigits s '.' hd (by decide)
  · cases s with
    | nil => simp [spacedDigit] at h
    | cons c1 t1 =>
      cases t1 with
      | nil => simp [spacedDigit] at h
      | cons c2 t2 =>
        cases t2 with
        | cons x t3 => simp [spacedDigit] at h
        | nil =>
          simp only [spacedDigit, Bool.and_eq_true, beq_iff_eq,
            decide_eq_true_eq] at h
          obtain ⟨⟨h1, h2⟩, _⟩ := h
          subst h1
          intro hm
          rcases List.mem_cons.mp hm with e | e
          · exact absurd e (by decide)
          · rcases List.mem_cons.mp e with e2 | e2
            · subst e2
              exact absurd h2 (by decide)
            · exact absurd e2 (List.not_mem_nil _)

lemma colon_not_mem_of_hourTok (s : PyStr) (h : hourTok s = true) :
    (':' : Char) ∉ s :=
  not_mem_of_isDigits s ':' (isDigits_of_hourTok s h) (by decide)

lemma colon_not_mem_of_minuteTok (s : PyStr) (h : minuteTok s = true) :
    (':' : Char) ∉ s :=
  not_mem_of_isDigits s ':' (isDigits_of_minuteTok s h) (by decide)

lemma dash_not_mem_of_looseHM (t : PyStr) (h : looseHM t) : ('-' : Char) ∉ t := by
  obtain ⟨hs, ms, rfl, hh, hm⟩ := h
  intro hmem
  rcases List.mem_append.mp hmem with h1 | h1
  · exact not_mem_of_isDigits hs '-' (isDigits_of_hourTok hs hh) (by decide) h1
  · rcases List.mem_cons.mp h1 with h2 | h2
    · exact absurd h2 (by decide)
    · exact not_mem_of_isDigits ms '-' (isDigits_of_minuteTok ms hm) (by decide) h2


lemma strptimeHM_isSome_iff (t : PyStr) :
    (strptimeHM t).isSome = true ↔ looseHM t := by
  constructor
  · intro h
    cases hsp : pySplit ':' t with
    | nil =>
      have he : strptimeHM t = none := by unfold strptimeHM; rw [hsp]
      rw [he] at h; simp at h
    | cons a l1 =>
      cases l1 with
      | nil =>
        have he : strptimeHM t = none := by unfold strptimeHM; rw [hsp]
        rw [he] at h; simp at h
      | cons b l2 =>
        cases l2 with
        | cons x l3 =>
          have he : strptimeHM t = none := by unfold strptimeHM; rw [hsp]
          rw [he] at h; simp at h
        | nil =>
          have he : strptimeHM t
              = if (hourTok a && minuteTok b) = true
                then some ⟨tokVal a, tokVal b⟩ else none := by
            unfold strptimeHM; rw [hsp]
          rw [he] at h
          by_cases hcond : (hourTok a && minuteTok b) = true
          · have ht : t = a ++ ':' :: b := by
              have hj := joinSep_pySplit ':' t
              rw [hsp] at hj
              simp only [joinSep, List.cons_append] at hj
              exact hj.symm
            simp only [Bool.and_eq_true] at hcond
            exact ⟨a, b, ht, hcond.1, hcond.2⟩
          · rw [if_neg hcond] at h
            simp at h
  · rintro ⟨hs, ms, rfl, hh, hm⟩
    have h1 : (':' : Char) ∉ hs := colon_not_mem_of_hourTok hs hh
    have h2 : (':' : Char) ∉ ms := colon_not_mem_of_minuteTok ms hm
    unfold strptimeHM
    rw [pySplit_append_sep ':' hs ms h1, pySplit_eq_single ':' ms h2]
    simp [hh, hm]

lemma strptimeDMY_isSome_iff (s : PyStr) :
    (strptimeDMY s).isSome = true ↔ looseDate s := by
  constructor
  · intro h
    cases hsp : pySplit '.' s with
    | nil =>
      have he : strptimeDMY s = none := by unfold strptimeDMY; rw [hsp]
      rw [he] at h; simp at h
    | cons ds l1 =>
      cases l1 with
      | nil =>
        have he : strptimeDMY s = none := by unfold strptimeDMY; rw [hsp]
        rw [he] at h; simp at h
      | cons ms l2 =>
        cases l2 with
        | nil =>
          have he : strptimeDMY s = none := by unfold strptimeDMY; rw [hsp]
          rw [he] at h; simp at h
        | cons ys l3 =>
          cases l3 with
          | cons x l4 =>
            have he : strptimeDMY s = none := by unfold strptimeDMY; rw [hsp]
            rw [he] at h; simp at h
          | nil =>
            have he : strptimeDMY s
                = if (dayTok ds && monTok ms && yearTok ys
                      && decide (1 ≤ tokVal ys)
                      && decide (tokVal ds ≤ daysInMonth (tokVal ys) (tokVal ms))) = true
                  then some ⟨tokVal ys, tokVal ms, tokVal ds⟩ else none := by
              unfold strptimeDMY; rw [hsp]
            rw [he] at h
            by_cases hcond : (dayTok ds && monTok ms && yearTok ys
                && decide (1 ≤ tokVal ys)
                && decide (tokVal ds ≤ daysInMonth (tokVal ys) (tokVal ms))) = true
            · have hs2 : s = ds ++ '.' :: (ms ++ '.' :: ys) := by
                have hj := joinSep_pySplit '.' s
                rw [hsp] at hj
                simp only [joinSep, List.cons_append] at hj
                exact hj.symm
              simp only [Bool.and_eq_true, decide_eq_true_eq] at hcond
              exact ⟨ds, ms, ys, hs2, hcond.1.1.1.1, hcond.1.1.1.2,
                hcond.1.1.2, hcond.1.2, hcond.2⟩
            · rw [if_neg hcond] at h
              simp at h
  · rintro ⟨ds, ms, ys, rfl, hd, hm, hy, h1, h2⟩
    have nd : ('.' : Char) ∉ ds := dot_not_mem_of_dayTok ds hd
    have nm : ('.' : Char) ∉ ms :=
      not_mem_of_isDigits ms '.' (isDigits_of_monTok ms hm) (by decide)
    have ny : ('.' : Char) ∉ ys :=
      not_mem_of_isDigits ys '.' (isDigits_of_yearTok ys hy) (by decide)
    unfold strptimeDMY
    rw [pySplit_append_sep '.' ds _ nd, pySplit_append_sep '.' ms _ nm,
      pySplit_eq_single '.' ys ny]
    simp [hd, hm, hy, h1, h2]

lemma tryParseInterval_ok_iff (s : PyStr) :
    (∃ p, tryParseInterval s = .ok p) ↔ looseInterval s := by
  constructor
  · rintro ⟨p, hp⟩
    cases hsp : pySplit '-' s with
    | nil =>
      have he : tryParseInterval s = .error .valueError := by
        unfold tryParseInterval splitUnpack2; rw [hsp]
      rw [he] at hp; simp at hp
    | cons a l1 =>
      cases l1 with
      | nil =>
        have he : tryParseInterval s = .error .valueError := by
          unfold tryParseInterval splitUnpack2; rw [hsp]
        rw [he] at hp; simp at hp
      | cons b l2 =>
        cases l2 with
        | cons x l3 =>
          have he : tryParseInterval s = .error .valueError := by
            unfold tryParseInterval splitUnpack2; rw [hsp]
          rw [he] at hp; simp at hp
        | nil =>
          have hs2 : s = a ++ '-' :: b := by
            have hj := joinSep_pySplit '-' s
            rw [hsp] at hj
            simp only [joinSep, List.cons_append] at hj
            exact hj.symm
          have he : tryParseInterval s
              = match strptimeHM a, strptimeHM b with
                | some t1, some t2 => .ok (t1, t2)
                | _, _ => .error .valueError := by
            unfold tryParseInterval splitUnpack2; rw [hsp]
          cases ha : strptimeHM a with
          | none =>
            rw [ha] at he
            cases hb : strptimeHM b with
            | none => rw [hb] at he; rw [he] at hp; simp at hp
            | some t2 => rw [hb] at he; rw [he] at hp; simp at hp
          | some t1 =>
            rw [ha] at he
            cases hb : strptimeHM b with
            | none => rw [hb] at he; rw [he] at hp; simp at hp
            | some t2 =>
              refine ⟨a, b, hs2, ?_, ?_⟩
              · exact (strptimeHM_isSome_iff a).mp (by rw [ha]; rfl)
              · exact (strptimeHM_isSome_iff b).mp (by rw [hb]; rfl)
  · rintro ⟨a, b, rfl, hA, hB⟩
    have na : ('-' : Char) ∉ a := dash_not_mem_of_looseHM a hA
    have nb : ('-' : Char) ∉ b := dash_not_mem_of_looseHM b hB
    have ha := (strptimeHM_isSome_iff a).mpr hA
    have hb := (strptimeHM_isSome_iff b).mpr hB
    rw [Option.isSome_iff_exists] at ha hb
    obtain ⟨t1, ht1⟩ := ha
    obtain ⟨t2, ht2⟩ := hb
    refine ⟨(t1, t2), ?_⟩
    have hred : tryParseInterval (a ++ '-' :: b)
        = match strptimeHM a, strptimeHM b with
          | some u1, some u2 => Except.ok (u1, u2)
          | _, _ => Except.error PyError.valueError := by
      unfold tryParseInterval splitUnpack2
      rw [pySplit_append_sep '-' a b na, pySplit_eq_single '-' b nb]
    rw [hred, ht1, ht2]

lemma tryParseInterval_error_eq (s : PyStr) (e : PyError)
    (h : tryParseInterval s = .error e) : e = .valueError := by
  cases hsp : pySplit '-' s with
  | nil =>
    have he : tryParseInterval s = .error .valueError := by
      unfold tryParseInterval splitUnpack2; rw [hsp]
    rw [he] at h
    exact (Except.error.inj h).symm
  | cons a l1 =>
    cases l1 with
    | nil =>
      have he : tryParseInterval s = .error .valueError := by
        unfold tryParseInterval splitUnpack2; rw [hsp]
      rw [he] at h
      exact (Except.error.inj h).symm
    | cons b l2 =>
      cases l2 with
      | cons x l3 =>
        have he : tryParseInterval s = .error .valueError := by
          unfold tryParseInterval splitUnpack2; rw [hsp]
        rw [he] at h
        exact (Except.error.inj h).symm
      | nil =>
        have he : tryParseInterval s
            = match strptimeHM a, strptimeHM b with
              | some t1, some t2 => .ok (t1, t2)
              | _, _ => .error .valueError := by
          unfold tryParseInterval splitUnpack2; rw [hsp]
        cases ha : strptimeHM a with
        | none =>
          rw [ha] at he
          cases hb : strptimeHM b with
          | none => rw [hb] at he; rw [he] at h; exact (Except.error.inj h).symm
          | some t2 => rw [hb] at he; rw [he] at h; exact (Except.error.inj h).symm
        | some t1 =>
          rw [ha] at he
          cases hb : strptimeHM b with
          | none => rw [hb] at he; rw [he] at h; exact (Except.error.inj h).symm
          | some t2 => rw [hb] at he; rw [he] at h; simp at h

lemma checkTimeGo_ne_raised (ni : Bool) (inputs : Nat → PyStr) :
    ∀ (fuel : Nat) (ti : PyStr) (idx : Nat) (e : PyError) (i : Nat),
      checkTimeGo ti ni inputs idx fuel ≠ .raised e i := by
  intro fuel
  induction fuel with
  | zero => intro ti idx e i h; exact Outcome.noConfusion h
  | succ n ih =>
    intro ti idx e i
    have he : checkTimeGo ti ni inputs idx (n + 1)
        = match tryParseInterval (if (ti.isEmpty && !ni) = true then inputs idx else ti) with
          | .ok p => .ok p (if (ti.isEmpty && !ni) = true then idx + 1 else idx)
          | .error .valueError =>
            checkTimeGo [] ni inputs (if (ti.isEmpty && !ni) = true then idx + 1 else idx) n
          | .error e2 =>
            .raised e2 (if (ti.isEmpty && !ni) = true then idx + 1 else idx) := rfl
    rw [he]
    cases hp : tryParseInterval (if (ti.isEmpty && !ni) = true then inputs idx else ti) with
    | ok p => simp
    | error e2 =>
      cases e2 with
      | valueError => exact ih [] _ e i
      | otherError => exact absurd (tryParseInterval_error_eq _ _ hp) (by simp)

lemma checkDateGo_zero (s : PyStr) (ni : Bool) (inputs : Nat → PyStr) (idx : Nat) :
    checkDateGo s ni inputs idx 0 = .exit1 idx := rfl

lemma checkTimeGo_zero (s : PyStr) (ni : Bool) (inputs : Nat → PyStr) (idx : Nat) :
    checkTimeGo s ni inputs idx 0 = .exit1 idx := rfl

lemma checkDateGo_empty_step (inputs : Nat → PyStr) (idx n : Nat) :
    checkDateGo [] false inputs idx (n + 1)
      = match strptimeDMY (inputs idx) with
        | some d => .ok d (idx + 1)
        | none => checkDateGo [] false inputs (idx + 1) n := rfl

lemma checkTimeGo_empty_step (inputs : Nat → PyStr) (idx n : Nat) :
    checkTimeGo [] false inputs idx (n + 1)
      = match tryParseInterval (inputs idx) with
        | .ok p => .ok p (idx + 1)
        | .error .valueError => checkTimeGo [] false inputs (idx + 1) n
        | .error e => .raised e (idx + 1) := rfl

lemma check_date_nonInteractive (s : PyStr) (inputs : Nat → PyStr) (idx : Nat) :
    check_date s true inputs idx
      = match strptimeDMY s with
        | some d => .ok d idx
        | none => .exit1 idx := by
  cases h : strptimeDMY s with
  | some d => simp [check_date, checkDateGo, h]
  | none => simp [check_date, checkDateGo, h]

lemma check_time_interval_nonInteractive (s : PyStr) (inputs : Nat → PyStr) (idx : Nat) :
    check_time_interval s true inputs idx
      = match tryParseInterval s with
        | .ok p => .ok p idx
        | .error .valueError => .exit1 idx
        | .error e => .raised e idx := by
  cases h : tryParseInterval s with
  | ok p => simp [check_time_interval, checkTimeGo, h]
  | error e2 => cases e2 <;> simp [check_time_interval, checkTimeGo, h]

/-- C1: for the add, update and delete subcommands, a false result from
the corresponding Timesheet store operation makes execute print a message
and exit with code 1, never raise; a true result lets execute fall
through, after which main returns 0 and the process exits with code 0. -/
theorem execute_store_result_contract (store : StoreBehavior) :
    ((store.add_record = false →
        execute (some .add) store = .exited 1 "Exiting. Record already exists."
        ∧ processExitCode (execute (some .add) store) = some 1)
      ∧ (store.add_record = true →
        execute (some .add) store = .completed
        ∧ processExitCode (execute (some .add) store) = some 0))
    ∧ ((store.update_record = false →
        execute (some .update) store
          = .exited 1 "Exiting. Record with given date not found."
        ∧ processExitCode (execute (some .update) store) = some 1)
      ∧ (store.update_record = true →
        execute (some .update) store = .completed
        ∧ processExitCode (execute (some .update) store) = some 0))
    ∧ ((store.delete_record = false →
        execute (some .delete) store
          = .exited 1 "Exiting. Record with given date not found."
        ∧ processExitCode (execute (some .delete) store) = some 1)
      ∧ (store.delete_record = true →
        execute (some .delete) store = .completed
        ∧ processExitCode (execute (some .delete) store) = some 0))
    ∧ (∀ (c : Subcommand) (e : PyError), execute (some c) store ≠ .raised e) := by
  refine ⟨⟨?_, ?_⟩, ⟨?_, ?_⟩, ⟨?_, ?_⟩, ?_⟩
  · intro h; simp [execute, h, processExitCode]
  · intro h; simp [execute, h, processExitCode]
  · intro h; simp [execute, h, processExitCode]
  · intro h; simp [execute, h, processExitCode]
  · intro h; simp [execute, h, processExitCode]
  · intro h; simp [execute, h, processExitCode]
  · intro c e
    cases c <;> (simp only [execute]; split <;> simp)

theorem execute_store_result_contract_witness :
    execute (some .add) ⟨false, true, true, true⟩
      = .exited 1 "Exiting. Record already exists."
    ∧ processExitCode (execute (some .update) ⟨true, true, true, true⟩) = some 0
    ∧ execute (some .delete) ⟨true, true, false, true⟩
      = .exited 1 "Exiting. Record with given date not found." :=
  ⟨((execute_store_result_contract ⟨false, true, true, true⟩).1.1 rfl).1,
   ((execute_store_result_contract ⟨true, true, true, true⟩).2.1.2 rfl).2,
   ((execute_store_result_contract ⟨true, true, false, true⟩).2.2.1.1 rfl).1⟩

/-- C2, counterexample: the one-digit day string 1.01.2020 is accepted by
check_date although it does not match the exact two-digit DD.MM.YYYY
shape, so acceptance is not equivalent to the exact wire format. -/
theorem check_date_exact_format_cex :
    check_date "1.01.2020".toList true (fun _ => []) 0
      = .ok ⟨2020, 1, 1⟩ 0
    ∧ specExactDate "1.01.2020".toList = false :=
  ⟨by decide, by decide⟩

/-- C2, amended: check_date accepts a string (returning a parsed date and
consuming no interactive input, here in non-interactive mode) if and only
if it decomposes as day-dot-month-dot-year with the day a one-or-two digit
numeral in 1..31 (or space plus nonzero digit), the month a one-or-two
digit numeral in 1..12, the year exactly four digits and at least 0001,
and the day no larger than the length of that month. -/
theorem check_date_accepts_iff_loose_format
    (s : PyStr) (inputs : Nat → PyStr) (idx : Nat) :
    (∃ d, check_date s true inputs idx = .ok d idx) ↔ looseDate s := by
  rw [← strptimeDMY_isSome_iff, check_date_nonInteractive]
  constructor
  · rintro ⟨d, hd⟩
    cases h : strptimeDMY s with
    | some q => simp [h]
    | none => rw [h] at hd; simp at hd
  · intro h
    rw [Option.isSome_iff_exists] at h
    obtain ⟨d, hd⟩ := h
    exact ⟨d, by rw [hd]⟩

/-- C3, counterexample: the one-digit hour string 8:00-16:00 is accepted
by check_time_interval although it does not match the exact HH:MM-HH:MM
shape, so acceptance is not equivalent to the exact wire format. -/
theorem check_time_interval_exact_format_cex :
    check_time_interval "8:00-16:00".toList true (fun _ => []) 0
      = .ok (⟨8, 0⟩, ⟨16, 0⟩) 0
    ∧ specExactInterval "8:00-16:00".toList = false :=
  ⟨by decide, by decide⟩

/-- C3, amended: check_time_interval accepts a string (returning a pair
of times and consuming no interactive input, here in non-interactive
mode) if and only if it is two tokens joined by a single dash, each token
being hour-colon-minute with the hour a one-or-two digit numeral at most
23 and the minute a one-or-two digit numeral at most 59. -/
theorem check_time_interval_accepts_iff_loose_format
    (s : PyStr) (inputs : Nat → PyStr) (idx : Nat) :
    (∃ p, check_time_interval s true inputs idx = .ok p idx) ↔ looseInterval s := by
  rw [← tryParseInterval_ok_iff, check_time_interval_nonInteractive]
  constructor
  · rintro ⟨p, hp⟩
    cases h : tryParseInterval s with
    | ok q => exact ⟨q, rfl⟩
    | error e =>
      rw [h] at hp
      cases e <;> simp at hp
  · rintro ⟨p, hp⟩
    exact ⟨p, by rw [hp]⟩

/-- C7: interval ordering is not enforced — the input 16:00-08:00, whose
end time is before its start time, is accepted by check_time_interval. -/
theorem check_time_interval_accepts_unordered :
    ∃ (s : PyStr) (t1 t2 : PyTime),
      check_time_interval s true (fun _ => []) 0 = .ok (t1, t2) 0
      ∧ t2.hour * 60 + t2.minute ≤ t1.hour * 60 + t1.minute :=
  ⟨"16:00-08:00".toList, ⟨16, 0⟩, ⟨8, 0⟩, by decide, by decide⟩

/-- C9: check_time_interval is total over string inputs — every failure
inside its try block is a ValueError and is caught, so on every input the
function either returns a pair of times or reaches the exit path, and
never propagates an exception. -/
theorem check_time_interval_total (ti : PyStr) (ni : Bool)
    (inputs : Nat → PyStr) (idx : Nat) :
    (∃ p i, check_time_interval ti ni inputs idx = .ok p i)
    ∨ (∃ i, check_time_interval ti ni inputs idx = .exit1 i) := by
  cases h : check_time_interval ti ni inputs idx with
  | ok p i => exact Or.inl ⟨p, i, rfl⟩
  | exit1 i => exact Or.inr ⟨i, rfl⟩
  | raised e i =>
    exact absurd h (checkTimeGo_ne_raised ni inputs (if ni then 1 else 3) ti idx e i)

/-- C4: the validation functions allow an attempt budget of 3 when
interactive — an invalid prompt answer is recovered by re-prompting, and
a valid answer within the first three prompts succeeds — while in
non-interactive mode, or once the budget is exhausted, an invalid or
missing input exits with code 1 without reading any further interactive
input. -/
theorem retry_budget_behavior :
    (∀ (s : PyStr) (inputs : Nat → PyStr) (idx : Nat),
      strptimeDMY s = none → check_date s true inputs idx = .exit1 idx)
    ∧ (∀ (s : PyStr) (inputs : Nat → PyStr) (idx : Nat) (e : PyError),
      tryParseInterval s = .error e →
      check_time_interval s true inputs idx = .exit1 idx)
    ∧ (∀ (inputs : Nat → PyStr) (idx : Nat),
      strptimeDMY (inputs idx) = none →
      strptimeDMY (inputs (idx + 1)) = none →
      strptimeDMY (inputs (idx + 2)) = none →
      check_date [] false inputs idx = .exit1 (idx + 3))
    ∧ (∀ (inputs : Nat → PyStr) (idx : Nat) (d : PyDate),
      strptimeDMY (inputs idx) = none →
      strptimeDMY (inputs (idx + 1)) = none →
      strptimeDMY (inputs (idx + 2)) = some d →
      check_date [] false inputs idx = .ok d (idx + 3))
    ∧ (∀ (inputs : Nat → PyStr) (idx : Nat),
      tryParseInterval (inputs idx) = .error .valueError →
      tryParseInterval (inputs (idx + 1)) = .error .valueError →
      tryParseInterval (inputs (idx + 2)) = .error .valueError →
      check_time_interval [] false inputs idx = .exit1 (idx + 3))
    ∧ (∀ (inputs : Nat → PyStr) (idx : Nat) (p : PyTime × PyTime),
      tryParseInterval (inputs idx) = .error .valueError →
      tryParseInterval (inputs (idx + 1)) = .error .valueError →
      tryParseInterval (inputs (idx + 2)) = .ok p →
      check_time_interval [] false inputs idx = .ok p (idx + 3)) := by
  refine ⟨?_, ?_, ?_, ?_, ?_, ?_⟩
  · intro s inputs idx h
    rw [check_date_nonInteractive, h]
  · intro s inputs idx e h
    have he := tryParseInterval_error_eq s e h
    subst he
    rw [check_time_interval_nonInteractive, h]
  · intro inputs idx h0 h1 h2
    show checkDateGo [] false inputs idx 3 = .exit1 (idx + 3)
    rw [checkDateGo_empty_step inputs idx 2, h0,
      checkDateGo_empty_step inputs (idx + 1) 1, h1,
      checkDateGo_empty_step inputs (idx + 2) 0, h2]
    rfl
  · intro inputs idx d h0 h1 h2
    show checkDateGo [] false inputs idx 3 = .ok d (idx + 3)
    rw [checkDateGo_empty_step inputs idx 2, h0,
      checkDateGo_empty_step inputs (idx + 1) 1, h1,
      checkDateGo_empty_step inputs (idx + 2) 0, h2]
  · intro inputs idx h0 h1 h2
    show checkTimeGo [] false inputs idx 3 = .exit1 (idx + 3)
    rw [checkTimeGo_empty_step inputs idx 2, h0,
      checkTimeGo_empty_step inputs (idx + 1) 1, h1,
      checkTimeGo_empty_step inputs (idx + 2) 0, h2]
    rfl
  · intro inputs idx p h0 h1 h2
    show checkTimeGo [] false inputs idx 3 = .ok p (idx + 3)
    rw [checkTimeGo_empty_step inputs idx 2, h0,
      checkTimeGo_empty_step inputs (idx + 1) 1, h1,
      checkTimeGo_empty_step inputs (idx + 2) 0, h2]

theorem retry_budget_behavior_witness :
    check_date "derp".toList true (fun _ => []) 0 = .exit1 0
    ∧ check_time_interval "derp".toList true (fun _ => []) 0 = .exit1 0
    ∧ check_date [] false (fun n => if n = 2 then "01.01.2020".toList else []) 0
      = .ok ⟨2020, 1, 1⟩ 3
    ∧ check_time_interval [] false
        (fun n => if n = 2 then "08:00-12:00".toList else []) 0
      = .ok (⟨8, 0⟩, ⟨12, 0⟩) 3
    ∧ check_date [] false (fun _ => []) 0 = .exit1 3
    ∧ check_time_interval [] false (fun _ => []) 0 = .exit1 3 :=
  ⟨retry_budget_behavior.1 _ _ 0 (by decide),
   retry_budget_behavior.2.1 _ _ 0 .valueError (by decide),
   retry_budget_behavior.2.2.2.1 _ 0 ⟨2020, 1, 1⟩ (by decide) (by decide) (by decide),
   retry_budget_behavior.2.2.2.2.2 _ 0 (⟨8, 0⟩, ⟨12, 0⟩)
     (by decide) (by decide) (by decide),
   retry_budget_behavior.2.2.1 _ 0 (by decide) (by decide) (by decide),
   retry_budget_behavior.2.2.2.2.1 _ 0 (by decide) (by decide) (by decide)⟩

/-- C5, counterexample: a namespace with the special flag set but the
delete subcommand keeps its interval fields as raw strings — check_args
does not set them to the zero sentinel, because the delete and export
branches skip the interval handling entirely. -/
theorem check_args_special_delete_cex :
    check_args ⟨some .delete, true, true, "01.01.2020".toList, [], [], []⟩
        (fun _ => []) 0
      = .ok ⟨some .delete, true, true, ⟨2020, 1, 1⟩, .raw [], .raw [], []⟩ 0
    ∧ decide (IntervalField.raw [] = IntervalField.pair zeroTime zeroTime) = false :=
  ⟨by decide, by decide⟩

/-- C5, amended: for namespaces with the special flag set whose
subcommand is neither delete nor export, once the date check succeeds
check_args succeeds outright, sets both interval fields to the
(00:00, 00:00) sentinel, performs no time-interval validation, and reads
at most one further interactive input (the comment prompt) — none for the
time intervals. -/
theorem check_args_special_zeroes_intervals (args : CliNamespace)
    (inputs : Nat → PyStr) (idx : Nat)
    (hspec : args.special = true)
    (h1 : args.subcommand ≠ some Subcommand.delete)
    (h2 : args.subcommand ≠ some Subcommand.exportCmd) :
    ∀ d i, check_date args.date args.non_interactive inputs idx = .ok d i →
      check_args args inputs idx
        = .ok ⟨args.subcommand, args.non_interactive, args.special, d,
               .pair zeroTime zeroTime, .pair zeroTime zeroTime,
               if (args.comment.isEmpty && !args.non_interactive) = true
               then inputs i else args.comment⟩
            (if (args.comment.isEmpty && !args.non_interactive) = true
             then i + 1 else i)
      ∧ (if (args.comment.isEmpty && !args.non_interactive) = true
         then i + 1 else i) ≤ i + 1 := by
  intro d i h
  constructor
  · unfold check_args
    rw [h]
    by_cases hrc : (args.comment.isEmpty && !args.non_interactive) = true
    · simp [hrc, hspec, h1, h2]
    · simp [hrc, hspec, h1, h2]
  · by_cases hrc : (args.comment.isEmpty && !args.non_interactive) = true
    · rw [if_pos hrc]
    · rw [if_neg hrc]
      exact Nat.le_succ i

theorem check_args_special_zeroes_intervals_witness :
    check_args ⟨some .add, true, true, "02.03.2021".toList, [], [],
        "Holiday".toList⟩ (fun _ => []) 0
      = .ok ⟨some .add, true, true, ⟨2021, 3, 2⟩, .pair zeroTime zeroTime,
             .pair zeroTime zeroTime, "Holiday".toList⟩ 0 :=
  (check_args_special_zeroes_intervals
    ⟨some .add, true, true, "02.03.2021".toList, [], [], "Holiday".toList⟩
    (fun _ => []) 0 rfl (by decide) (by decide) ⟨2021, 3, 2⟩ 0 (by decide)).1

/-- C6, counterexample: the invocation with the single flag -n omits the
positional subcommand, yet parse_cli does not print help and exit 0 — it
returns a namespace with no subcommand, because the source only checks
whether the raw argument list is empty. -/
theorem parse_cli_flags_without_subcommand_cex :
    parse_cli ["-n"] = .ok ⟨none, true, false, [], [], [], []⟩
    ∧ decide (parse_cli ["-n"] = ParseOutcome.helpExit0) = false :=
  ⟨by decide, by decide⟩

/-- C6, amended: help plus exit 0 is triggered by an empty raw argument
list (or by an explicit help flag inside the parse), not by omission of
the subcommand: with no arguments at all the program prints help and
exits 0, while omitting the subcommand but passing other flags yields a
parsed namespace with no subcommand set. -/
theorem parse_cli_help_iff_no_args :
    (∀ argv : List String,
      parse_cli argv = .helpExit0
        ↔ (parseLoop argv defaultNamespace = .helpExit0 ∨ argv.isEmpty = true))
    ∧ parse_cli [] = .helpExit0
    ∧ parse_cli ["-n"] = .ok ⟨none, true, false, [], [], [], []⟩ := by
  refine ⟨?_, by decide, by decide⟩
  intro argv
  cases argv with
  | nil => simp [parse_cli, parseLoop]
  | cons t rest =>
    cases hp : parseLoop (t :: rest) defaultNamespace with
    | ok ns => simp [parse_cli, hp]
    | helpExit0 => simp [parse_cli, hp]
    | versionExit0 => simp [parse_cli, hp]
    | errorExit2 => simp [parse_cli, hp]

/-- C8: for the delete and export subcommands, check_args validates and
replaces only the date field — once the date check succeeds with some
parsed date and input position, check_args succeeds at that same input
position with the comment, work-hours and break-time fields untouched
(still the raw command-line strings). -/
theorem check_args_delete_export_frame (args : CliNamespace)
    (inputs : Nat → PyStr) (idx : Nat)
    (hsub : args.subcommand = some Subcommand.delete
      ∨ args.subcommand = some Subcommand.exportCmd) :
    ∀ d i, check_date args.date args.non_interactive inputs idx = .ok d i →
      check_args args inputs idx
        = .ok ⟨args.subcommand, args.non_interactive, args.special, d,
               .raw args.work_hours, .raw args.break_time, args.comment⟩ i := by
  intro d i h
  unfold check_args
  rw [h]
  rcases hsub with h1 | h1 <;> simp [h1]

theorem check_args_delete_export_frame_witness :
    check_args ⟨some .delete, true, false, "01.01.2020".toList, "x".toList,
        "y".toList, "z".toList⟩ (fun _ => []) 0
      = .ok ⟨some .delete, true, false, ⟨2020, 1, 1⟩, .raw "x".toList,
             .raw "y".toList, "z".toList⟩ 0 :=
  check_args_delete_export_frame
    ⟨some .delete, true, false, "01.01.2020".toList, "x".toList, "y".toList,
      "z".toList⟩
    (fun _ => []) 0 (Or.inl rfl) ⟨2020, 1, 1⟩ 0 (by decide)

/-- C10: in interactive mode a non-empty candidate supplied on the
command line is parsed exactly once — after the failed parse the loop
continues exactly as if the candidate were the empty string with one
fewer attempt, so all later attempts read fresh interactive input; this
holds for both check_date and check_time_interval. -/
theorem flag_value_tried_once (s : PyStr) (inputs : Nat → PyStr)
    (idx a : Nat) :
    (s.isEmpty = false → strptimeDMY s = none →
      checkDateGo s false inputs idx (a + 1) = checkDateGo [] false inputs idx a
      ∧ check_date s false inputs idx = checkDateGo [] false inputs idx 2)
    ∧ (s.isEmpty = false → tryParseInterval s = .error .valueError →
      checkTimeGo s false inputs idx (a + 1)
        = checkTimeGo [] false inputs idx a
      ∧ check_time_interval s false inputs idx
        = checkTimeGo [] false inputs idx 2) := by
  constructor
  · intro h1 h2
    constructor
    · simp [checkDateGo, h1, h2]
    · show checkDateGo s false inputs idx 3 = checkDateGo [] false inputs idx 2
      simp [checkDateGo, h1, h2]
  · intro h1 h2
    constructor
    · simp [checkTimeGo, h1, h2]
    · show checkTimeGo s false inputs idx 3 = checkTimeGo [] false inputs idx 2
      simp [checkTimeGo, h1, h2]

theorem flag_value_tried_once_witness :
    checkDateGo "derp".toList false (fun _ => []) 0 3
      = checkDateGo [] false (fun _ => []) 0 2
    ∧ check_time_interval "derp".toList false (fun _ => []) 0
      = checkTimeGo [] false (fun _ => []) 0 2 :=
  ⟨((flag_value_tried_once "derp".toList (fun _ => []) 0 2).1
      (by decide) (by decide)).1,
   ((flag_value_tried_once "derp".toList (fun _ => []) 0 2).2
      (by decide) (by decide)).2⟩
